import Mathlib

/-!
Shallow embedding of the nwd1-webtransport framing helpers (src/src/lib.rs):
`send_frame` and `recv_frame` over an abstract byte stream, with the
external `nwd1` codec (`encode`, `decode`, `Frame`, `MAGIC`) and the
external `netid64` identifier scheme taken as parameters or modelled
from the spec where their code is not part of this repository.

Byte sequences are `List Nat` (each element a byte value < 256 where it
matters); machine arithmetic is plain `Nat` with explicit base-256 /
base-2^32 formulas, mirroring `u32::from_be_bytes` from the source.
-/

deriving instance DecidableEq for Except

namespace Nwd1WT

/-- The kinds of `std::io::Error` the embedded code distinguishes:
`read_exact` reports end-of-file as `unexpectedEof`, the framing errors are
built with `ErrorKind::InvalidData`, and any other underlying transport
error is `other`. -/
inductive ErrKind where
  | unexpectedEof
  | invalidData
  | other
deriving DecidableEq, Repr

/-- A `std::io::Error` value as the code observes it: its `ErrorKind`
together with its message string (the code builds errors with
`io::Error::new(kind, msg)` and branches on `e.kind()`). -/
structure IOErr where
  kind : ErrKind
  msg : String
deriving DecidableEq, Repr

/-- The error `tokio::io::AsyncReadExt::read_exact` returns when the stream
reaches end-of-file before the buffer is filled ("early eof",
`ErrorKind::UnexpectedEof`). -/
def eofErr : IOErr := ⟨ErrKind.unexpectedEof, "early eof"⟩

/-- Model of one directional half of an async byte stream as `recv_frame`
reads it: the bytes that will be delivered before the stream ends, and how
it ends (`none` = clean close / EOF, `some e` = a transport read error). -/
structure ByteStream where
  data : List Nat
  terminal : Option IOErr
deriving DecidableEq, Repr

/-- Model of `tokio::io::AsyncReadExt::read_exact` on a `ByteStream`:
reads exactly `n` bytes, or fails with `ErrorKind::UnexpectedEof` if the
stream closes first, or with the stream's own error.  On failure the
partially read bytes are consumed (the stream is left desynchronized). -/
def read_exact (s : ByteStream) (n : Nat) : Except IOErr (List Nat) × ByteStream :=
  if n ≤ s.data.length then
    (Except.ok (s.data.take n), ⟨s.data.drop n, s.terminal⟩)
  else
    match s.terminal with
    | none => (Except.error eofErr, ⟨[], none⟩)
    | some e => (Except.error e, ⟨[], some e⟩)

/-- Modelled from the spec: the `Frame` record of the external `nwd1`
crate — "id: opaque 64-bit identifier, kind: small unsigned integer,
ver: small unsigned integer, payload: an immutable byte sequence". -/
structure Frame where
  id : Nat
  kind : Nat
  ver : Nat
  payload : List Nat
deriving DecidableEq, Repr

/-- Modelled from the spec: `MAGIC` of the external `nwd1` crate, a
"fixed 4-byte constant identifying the protocol family"; the concrete
value is external, modelled here as the ASCII bytes of "nwd1".  No claim
depends on the value, only on its 4-byte width and on exact matching. -/
def MAGIC : List Nat := [110, 119, 100, 49]

/-- Hard safety ceiling against pathological allocations (8 MiB),
`MAX_FRAME_LEN_HARD` in the source. -/
def MAX_FRAME_LEN_HARD : Nat := 8 * 1024 * 1024

/-- Default soft cap for browser-oriented traffic (256 KiB),
`DEFAULT_FRAME_LEN_SOFT` in the source. -/
def DEFAULT_FRAME_LEN_SOFT : Nat := 256 * 1024

/-- Header length: MAGIC(4) + LEN(4). -/
def HEADER_LEN : Nat := 8

/-- Big-endian base-256 value of a 4-byte slice:
`u32::from_be_bytes([header[4], header[5], header[6], header[7]])` applied
to `header[4..8]`. -/
def u32_from_be_bytes : List Nat → Nat
  | [b0, b1, b2, b3] => ((b0 * 256 + b1) * 256 + b2) * 256 + b3
  | _ => 0

/-- The bad-magic error, `io::Error::new(InvalidData, "nwd1 bad magic")`. -/
def badMagicErr : IOErr := ⟨ErrKind.invalidData, "nwd1 bad magic"⟩

/-- The oversize error,
`io::Error::new(InvalidData, "nwd1 frame too large")`. -/
def tooLargeErr : IOErr := ⟨ErrKind.invalidData, "nwd1 frame too large"⟩

/-- The codec-failure error,
`io::Error::new(InvalidData, "nwd1 decode error")`. -/
def decodeErr : IOErr := ⟨ErrKind.invalidData, "nwd1 decode error"⟩

/-- Embedding of `recv_frame` (src/src/lib.rs lines 38-86), parametrised by
the external codec's `decode` (its error type is opaque, the code discards
it).  Returns the `io::Result<Option<Frame>>` value together with the final
stream state, so byte consumption is observable.

Steps, exactly as in the source: read the fixed 8-byte header, mapping an
`UnexpectedEof` failure to `Ok(None)` and propagating any other error;
fail-fast with "nwd1 bad magic" if `header[..4] != MAGIC`; parse
`header[4..8]` as a big-endian u32 `len`; fail with "nwd1 frame too large"
if `len > soft_cap || len > MAX_FRAME_LEN_HARD`; read exactly `len` body
bytes, propagating any error; hand `header ++ body` to `decode`, mapping a
codec failure to "nwd1 decode error". -/
def recv_frame (decode : List Nat → Except Unit Frame) (reader : ByteStream)
    (soft_cap : Nat) : Except IOErr (Option Frame) × ByteStream :=
  match read_exact reader HEADER_LEN with
  | (Except.error e, r1) =>
      if e.kind = ErrKind.unexpectedEof then (Except.ok none, r1)
      else (Except.error e, r1)
  | (Except.ok header, r1) =>
      if header.take 4 ≠ MAGIC then
        (Except.error badMagicErr, r1)
      else
        let len := u32_from_be_bytes (header.drop 4)
        if len > soft_cap ∨ len > MAX_FRAME_LEN_HARD then
          (Except.error tooLargeErr, r1)
        else
          match read_exact r1 len with
          | (Except.error e, r2) => (Except.error e, r2)
          | (Except.ok body, r2) =>
              match decode (header ++ body) with
              | Except.ok frame => (Except.ok (some frame), r2)
              | Except.error _ => (Except.error decodeErr, r2)

/-- Model of one directional half of an async byte stream as `send_frame`
writes it: the bytes accepted so far, plus `some e` if the write path fails
with error `e` (a healthy writer has `failure = none`). -/
structure ByteWriter where
  written : List Nat
  failure : Option IOErr
deriving DecidableEq, Repr

/-- Model of `tokio::io::AsyncWriteExt::write_all`: either every byte is
accepted, or the underlying transport fails with its error. -/
def write_all (w : ByteWriter) (data : List Nat) : Except IOErr ByteWriter :=
  match w.failure with
  | some e => Except.error e
  | none => Except.ok ⟨w.written ++ data, none⟩

/-- Embedding of `send_frame` (src/src/lib.rs lines 31-36), parametrised by
the external codec's `encode`: `let data = encode(frame);
writer.write_all(&data).await?; Ok(())`.  Returns the updated writer so the
written bytes are observable. -/
def send_frame (encode : Frame → List Nat) (writer : ByteWriter)
    (frame : Frame) : Except IOErr ByteWriter :=
  write_all writer (encode frame)

/-! Concrete instances of the external collaborators, used to instantiate
the codec-parametric theorems at closed inputs. -/

/-- A decoder rejecting every buffer: a degenerate but legal instance of
the opaque external codec, for instantiating decode-independent facts. -/
def decodeNone : List Nat → Except Unit Frame := fun _ => Except.error ()

/-- Modelled from the spec: `NetId64::make(namespace, type, local)` of the
external `netid64` crate builds an "opaque 64-bit identifier"; the bit
packing is external, modelled as namespace and type bytes above a 48-bit
local value. -/
def netid64_make (ns ty lo : Nat) : Nat :=
  ((ns % 256) * 256 + ty % 256) * 2 ^ 48 + lo % 2 ^ 48

/-- Big-endian bytes of a 64-bit value, most significant first. -/
def u64_to_be_bytes (n : Nat) : List Nat :=
  [n / 2 ^ 56 % 256, n / 2 ^ 48 % 256, n / 2 ^ 40 % 256, n / 2 ^ 32 % 256,
   n / 2 ^ 24 % 256, n / 2 ^ 16 % 256, n / 2 ^ 8 % 256, n % 256]

/-- Value of a big-endian byte sequence. -/
def u64_from_be_bytes (l : List Nat) : Nat :=
  l.foldl (fun acc b => acc * 256 + b) 0

/-- Big-endian bytes of a 32-bit value, most significant first. -/
def u32_to_be_bytes (n : Nat) : List Nat :=
  [n / 2 ^ 24 % 256, n / 2 ^ 16 % 256, n / 2 ^ 8 % 256, n % 256]

/-- A concrete body encoding following the spec's wire layout
`id | kind | ver | payload`: 8-byte big-endian id, one byte each for kind
and ver, then the payload verbatim. -/
def encodeBody (f : Frame) : List Nat :=
  u64_to_be_bytes f.id ++ [f.kind % 256, f.ver % 256] ++ f.payload

/-- A concrete `encode` honouring the spec's wire format:
`MAGIC | LEN (big-endian u32) | body`. -/
def encodeToy (f : Frame) : List Nat :=
  MAGIC ++ u32_to_be_bytes (encodeBody f).length ++ encodeBody f

/-- A concrete `decode` inverting `encodeToy` on well-formed buffers. -/
def decodeToy (buf : List Nat) : Except Unit Frame :=
  if buf.take 4 = MAGIC ∧ 18 ≤ buf.length then
    Except.ok
      ⟨u64_from_be_bytes ((buf.drop 8).take 8),
       (buf.drop 16).headD 0, (buf.drop 17).headD 0, buf.drop 18⟩
  else
    Except.error ()

/-- The concrete frame of the spec's scenario: id built from
(namespace = 1, type = 7, local = 42), kind 1, ver 1, payload the ASCII
bytes of "hello". -/
def frame0 : Frame :=
  ⟨netid64_make 1 7 42, 1, 1, [104, 101, 108, 108, 111]⟩

/-! Helper lemmas about `read_exact`. -/

/-- When enough bytes are buffered, `read_exact` succeeds with exactly the
first `n` bytes and consumes them. -/
lemma read_exact_of_le (s : ByteStream) (n : Nat) (h : n ≤ s.data.length) :
    read_exact s n = (Except.ok (s.data.take n), ⟨s.data.drop n, s.terminal⟩) := by
  simp [read_exact, h]

/-- Same statement with the stream given by its two fields. -/
lemma read_exact_mk (l : List Nat) (t : Option IOErr) (n : Nat) (h : n ≤ l.length) :
    read_exact ⟨l, t⟩ n = (Except.ok (l.take n), ⟨l.drop n, t⟩) :=
  read_exact_of_le _ _ h

/-- On a cleanly closing stream with too few bytes, `read_exact` fails with
the `UnexpectedEof` error. -/
lemma read_exact_eof (s : ByteStream) (n : Nat) (h : s.data.length < n)
    (ht : s.terminal = none) :
    read_exact s n = (Except.error eofErr, ⟨[], none⟩) := by
  unfold read_exact
  rw [if_neg (Nat.not_le.mpr h), ht]

/-- On a cleanly closing stream, the only error `read_exact` can produce is
the `UnexpectedEof` error. -/
lemma read_exact_error_none (l : List Nat) (n : Nat) (e : IOErr) (s' : ByteStream)
    (h : read_exact ⟨l, none⟩ n = (Except.error e, s')) : e = eofErr := by
  unfold read_exact at h
  split at h <;> simp_all

/-- Any error `read_exact` produces is either the `UnexpectedEof` error or
the stream's own terminal error. -/
lemma read_exact_error (s : ByteStream) (n : Nat) (e : IOErr) (s' : ByteStream)
    (h : read_exact s n = (Except.error e, s')) : e = eofErr ∨ s.terminal = some e := by
  unfold read_exact at h
  split at h
  · simp at h
  · split at h <;> simp_all

/-- `read_exact` never changes how the stream eventually ends. -/
lemma read_exact_terminal (s : ByteStream) (n : Nat) :
    (read_exact s n).2.terminal = s.terminal := by
  unfold read_exact
  split
  · rfl
  · split <;> simp_all

/-- Behaviour of `recv_frame` once a well-formed header with valid magic
has been read: all that remains is the cap check, the body read and the
decode step. -/
lemma recv_frame_cons (decode : List Nat → Except Unit Frame)
    (b4 b5 b6 b7 : Nat) (rest : List Nat) (t : Option IOErr) (cap : Nat) :
    recv_frame decode ⟨MAGIC ++ [b4, b5, b6, b7] ++ rest, t⟩ cap =
      if u32_from_be_bytes [b4, b5, b6, b7] > cap ∨
          u32_from_be_bytes [b4, b5, b6, b7] > MAX_FRAME_LEN_HARD then
        (Except.error tooLargeErr, ⟨rest, t⟩)
      else
        match read_exact ⟨rest, t⟩ (u32_from_be_bytes [b4, b5, b6, b7]) with
        | (Except.error e, r2) => (Except.error e, r2)
        | (Except.ok body, r2) =>
            match decode (MAGIC ++ [b4, b5, b6, b7] ++ body) with
            | Except.ok frame => (Except.ok (some frame), r2)
            | Except.error _ => (Except.error decodeErr, r2) := by
  have h8 : HEADER_LEN ≤ (MAGIC ++ [b4, b5, b6, b7] ++ rest : List Nat).length := by
    simp [HEADER_LEN, MAGIC]
  unfold recv_frame
  rw [read_exact_of_le _ _ h8]
  simp [MAGIC, HEADER_LEN, u32_from_be_bytes]

/-- Receiving from a stream holding exactly one well-formed wire frame
consumes it whole and returns the decoded frame. -/
lemma recv_frame_whole_wire (decode : List Nat → Except Unit Frame) (wire : List Nat)
    (cap : Nat) (f : Frame)
    (hmag : wire.take 4 = MAGIC) (hlen8 : 8 ≤ wire.length)
    (hlenfield : u32_from_be_bytes ((wire.take 8).drop 4) = wire.length - 8)
    (hcap : wire.length - 8 ≤ cap) (hhard : wire.length - 8 ≤ MAX_FRAME_LEN_HARD)
    (hdec : decode wire = Except.ok f) :
    recv_frame decode ⟨wire, none⟩ cap = (Except.ok (some f), ⟨[], none⟩) := by
  unfold recv_frame
  simp only [HEADER_LEN]
  rw [read_exact_mk _ _ _ hlen8]
  show (if List.take 4 (List.take 8 wire) ≠ MAGIC then
      ((Except.error badMagicErr : Except IOErr (Option Frame)),
        (⟨List.drop 8 wire, none⟩ : ByteStream))
    else
      if u32_from_be_bytes (List.drop 4 (List.take 8 wire)) > cap ∨
          u32_from_be_bytes (List.drop 4 (List.take 8 wire)) > MAX_FRAME_LEN_HARD then
        (Except.error tooLargeErr, ⟨List.drop 8 wire, none⟩)
      else
        match read_exact ⟨List.drop 8 wire, none⟩
            (u32_from_be_bytes (List.drop 4 (List.take 8 wire))) with
        | (Except.error e, r2) => (Except.error e, r2)
        | (Except.ok body, r2) =>
            match decode (List.take 8 wire ++ body) with
            | Except.ok frame => (Except.ok (some frame), r2)
            | Except.error _ => (Except.error decodeErr, r2)) =
    (Except.ok (some f), ⟨[], none⟩)
  rw [if_neg (not_not_intro (by rw [List.take_take]; simpa using hmag))]
  rw [if_neg (by rw [hlenfield]; omega)]
  rw [show u32_from_be_bytes (List.drop 4 (List.take 8 wire)) = wire.length - 8 from hlenfield]
  rw [read_exact_mk _ _ _ (by simp)]
  have h1 : (wire.drop 8).take (wire.length - 8) = wire.drop 8 := by
    rw [show wire.length - 8 = (wire.drop 8).length from (List.length_drop _ _).symm,
      List.take_length]
  have h2 : (wire.drop 8).drop (wire.length - 8) = [] := by
    rw [List.drop_drop, show 8 + (wire.length - 8) = wire.length from by omega,
      List.drop_length]
  rw [h1, h2]
  show (match decode (List.take 8 wire ++ List.drop 8 wire) with
      | Except.ok frame => ((Except.ok (some frame) : Except IOErr (Option Frame)),
          (⟨[], none⟩ : ByteStream))
      | Except.error _ => (Except.error decodeErr, ⟨[], none⟩)) =
    (Except.ok (some f), ⟨[], none⟩)
  rw [show List.take 8 wire ++ List.drop 8 wire = wire from List.take_append_drop 8 wire]
  rw [hdec]

/-- C1, counterexample: a stream that delivers 3 header bytes and then
closes cleanly makes `recv_frame` return `Ok(None)` — the clean-close
signal — not a transport failure, refuting the claim that 1-7 delivered
header bytes followed by close always yield an I/O error. -/
theorem claim_C1_counterexample :
    (recv_frame decodeNone ⟨[110, 119, 100], none⟩ DEFAULT_FRAME_LEN_SOFT).1 =
        Except.ok none ∧
    1 ≤ ([110, 119, 100] : List Nat).length ∧ ([110, 119, 100] : List Nat).length ≤ 7 := by
  decide

/-- C1, amended: for every stream that delivers 1-7 header bytes and then
closes cleanly, `recv_frame` returns `Ok(None)` — the same signal as a
clean close at a frame boundary — because the code maps every
`UnexpectedEof` of the header read to `Ok(None)`, whether zero or some
header bytes had arrived. -/
theorem claim_C1 (decode : List Nat → Except Unit Frame) (data : List Nat) (cap : Nat)
    (h1 : 1 ≤ data.length) (h7 : data.length ≤ 7) :
    recv_frame decode ⟨data, none⟩ cap = (Except.ok none, ⟨[], none⟩) := by
  unfold recv_frame
  rw [read_exact_eof _ _ (by simp [HEADER_LEN]; omega) rfl]
  simp [eofErr]

/-- Witness for C1 (amended) at a concrete 5-byte truncated header. -/
theorem claim_C1_witness :
    1 ≤ ([0, 1, 2, 3, 4] : List Nat).length ∧ ([0, 1, 2, 3, 4] : List Nat).length ≤ 7 ∧
    recv_frame decodeNone ⟨[0, 1, 2, 3, 4], none⟩ 0 = (Except.ok none, ⟨[], none⟩) :=
  ⟨by decide, by decide, claim_C1 decodeNone [0, 1, 2, 3, 4] 0 (by decide) (by decide)⟩

/-- C2: for a well-formed header with valid magic (byte values < 256, so
`len` is the big-endian u32 of bytes 4..8) on a cleanly closing stream,
`recv_frame` fails with the "frame too large" error exactly when `len`
exceeds the soft cap or exceeds the 8 MiB hard ceiling — i.e. the frame
proceeds to the body read exactly when `len ≤ min(soft_cap, 8 MiB)`, and a
soft cap above the hard ceiling is clamped by the hard check, never an
error by itself. -/
theorem claim_C2 (decode : List Nat → Except Unit Frame) (b4 b5 b6 b7 : Nat)
    (rest : List Nat) (cap : Nat)
    (hb4 : b4 < 256) (hb5 : b5 < 256) (hb6 : b6 < 256) (hb7 : b7 < 256) :
    (recv_frame decode ⟨MAGIC ++ [b4, b5, b6, b7] ++ rest, none⟩ cap).1 =
        Except.error tooLargeErr ↔
      (cap < u32_from_be_bytes [b4, b5, b6, b7] ∨
       MAX_FRAME_LEN_HARD < u32_from_be_bytes [b4, b5, b6, b7]) := by
  rw [recv_frame_cons]
  by_cases hc : u32_from_be_bytes [b4, b5, b6, b7] > cap ∨
      u32_from_be_bytes [b4, b5, b6, b7] > MAX_FRAME_LEN_HARD
  · rw [if_pos hc]
    simpa using hc
  · rw [if_neg hc]
    constructor
    · intro hres
      exfalso
      rcases hre : read_exact ⟨rest, none⟩ (u32_from_be_bytes [b4, b5, b6, b7]) with ⟨res, r2⟩
      rw [hre] at hres
      cases res with
      | error e =>
          have he : e = eofErr := read_exact_error_none _ _ _ _ hre
          subst he
          have hres' : (Except.error eofErr : Except IOErr (Option Frame)) =
              Except.error tooLargeErr := hres
          simp [eofErr, tooLargeErr] at hres'
      | ok body =>
          have hres' : (match decode (MAGIC ++ [b4, b5, b6, b7] ++ body) with
              | Except.ok frame => ((Except.ok (some frame) : Except IOErr (Option Frame)), r2)
              | Except.error _ => (Except.error decodeErr, r2)).1 =
              Except.error tooLargeErr := hres
          rcases hd : decode (MAGIC ++ [b4, b5, b6, b7] ++ body) with u | f
          · rw [hd] at hres'
            simp [decodeErr, tooLargeErr] at hres'
          · rw [hd] at hres'
            simp at hres'
    · intro hcap
      exact absurd hcap hc

/-- Witness for C2: declared length 256 against soft cap 100. -/
theorem claim_C2_witness :
    (recv_frame decodeNone ⟨MAGIC ++ [0, 0, 1, 0] ++ [], none⟩ 100).1 =
        Except.error tooLargeErr ↔
      (100 < u32_from_be_bytes [0, 0, 1, 0] ∨
       MAX_FRAME_LEN_HARD < u32_from_be_bytes [0, 0, 1, 0]) :=
  claim_C2 decodeNone 0 0 1 0 [] 100 (by decide) (by decide) (by decide) (by decide)

/-- C3: receiving from a stream that closes cleanly before delivering any
byte yields the clean-close signal `Ok(None)`, not an error, for every
soft cap and every decoder. -/
theorem claim_C3 (decode : List Nat → Except Unit Frame) (cap : Nat) :
    recv_frame decode ⟨[], none⟩ cap = (Except.ok none, ⟨[], none⟩) := rfl

/-- C4: for every 8-byte header whose first 4 bytes differ from MAGIC in
any position, `recv_frame` fails with the "bad magic" protocol error and
consumes exactly the 8 header bytes — whatever follows them is left
unread on the stream. -/
theorem claim_C4 (decode : List Nat → Except Unit Frame) (header rest : List Nat)
    (t : Option IOErr) (cap : Nat)
    (hlen : header.length = 8) (hmag : header.take 4 ≠ MAGIC) :
    recv_frame decode ⟨header ++ rest, t⟩ cap = (Except.error badMagicErr, ⟨rest, t⟩) := by
  unfold recv_frame
  rw [read_exact_of_le _ _ (by simp [HEADER_LEN, hlen])]
  have h1 : (header ++ rest).take HEADER_LEN = header := List.take_left' hlen
  have h2 : (header ++ rest).drop HEADER_LEN = rest := List.drop_left' hlen
  simp only [h1, h2]
  rw [if_pos hmag]

/-- Witness for C4 at a corrupted header followed by one body byte. -/
theorem claim_C4_witness :
    ([1, 2, 3, 4, 0, 0, 0, 1] : List Nat).length = 8 ∧
    ([1, 2, 3, 4, 0, 0, 0, 1] : List Nat).take 4 ≠ MAGIC ∧
    recv_frame decodeNone ⟨[1, 2, 3, 4, 0, 0, 0, 1] ++ [9], none⟩ 100 =
      (Except.error badMagicErr, ⟨[9], none⟩) :=
  ⟨by decide, by decide,
    claim_C4 decodeNone [1, 2, 3, 4, 0, 0, 0, 1] [9] none 100 (by decide) (by decide)⟩

/-- C5: the three framing errors and the end-of-file transport error are
pairwise distinct, inspectable values, and every error `recv_frame`
returns is one of them or the stream's own propagated transport error —
so a caller can tell transport failure, bad magic, frame too large and
decode failure apart from the returned error value. -/
theorem claim_C5 :
    (badMagicErr ≠ tooLargeErr ∧ badMagicErr ≠ decodeErr ∧ tooLargeErr ≠ decodeErr ∧
     eofErr ≠ badMagicErr ∧ eofErr ≠ tooLargeErr ∧ eofErr ≠ decodeErr) ∧
    ∀ (decode : List Nat → Except Unit Frame) (reader : ByteStream) (cap : Nat) (e : IOErr),
      (recv_frame decode reader cap).1 = Except.error e →
      e = badMagicErr ∨ e = tooLargeErr ∨ e = decodeErr ∨ e = eofErr ∨
        reader.terminal = some e := by
  refine ⟨by decide, ?_⟩
  intro decode reader cap e herr
  unfold recv_frame at herr
  rcases h1 : read_exact reader HEADER_LEN with ⟨res1, r1⟩
  rw [h1] at herr
  cases res1 with
  | error e1 =>
      have herr' : (if e1.kind = ErrKind.unexpectedEof then
          ((Except.ok none : Except IOErr (Option Frame)), r1)
        else (Except.error e1, r1)).1 = Except.error e := herr
      split at herr'
      · simp at herr'
      · simp at herr'
        subst herr'
        rcases read_exact_error _ _ _ _ h1 with h | h
        · exact Or.inr (Or.inr (Or.inr (Or.inl h)))
        · exact Or.inr (Or.inr (Or.inr (Or.inr h)))
  | ok header =>
      have hterm : r1.terminal = reader.terminal := by
        have := read_exact_terminal reader HEADER_LEN
        rw [h1] at this
        exact this
      have herr' : (if List.take 4 header ≠ MAGIC then
          ((Except.error badMagicErr : Except IOErr (Option Frame)), r1)
        else if u32_from_be_bytes (List.drop 4 header) > cap ∨
            u32_from_be_bytes (List.drop 4 header) > MAX_FRAME_LEN_HARD then
          (Except.error tooLargeErr, r1)
        else
          match read_exact r1 (u32_from_be_bytes (List.drop 4 header)) with
          | (Except.error e2, r2) => (Except.error e2, r2)
          | (Except.ok body, r2) =>
              match decode (header ++ body) with
              | Except.ok frame => (Except.ok (some frame), r2)
              | Except.error _ => (Except.error decodeErr, r2)).1 = Except.error e := herr
      split at herr'
      · simp at herr'
        exact Or.inl herr'.symm
      · split at herr'
        · simp at herr'
          exact Or.inr (Or.inl herr'.symm)
        · rcases h2 : read_exact r1 (u32_from_be_bytes (List.drop 4 header)) with ⟨res2, r2⟩
          rw [h2] at herr'
          cases res2 with
          | error e2 =>
              simp at herr'
              subst herr'
              rcases read_exact_error _ _ _ _ h2 with h | h
              · exact Or.inr (Or.inr (Or.inr (Or.inl h)))
              · rw [hterm] at h
                exact Or.inr (Or.inr (Or.inr (Or.inr h)))
          | ok body =>
              have herr2 : (match decode (header ++ body) with
                  | Except.ok frame =>
                      ((Except.ok (some frame) : Except IOErr (Option Frame)), r2)
                  | Except.error _ => (Except.error decodeErr, r2)).1 =
                  Except.error e := herr'
              rcases hd : decode (header ++ body) with u | f
              · rw [hd] at herr2
                simp at herr2
                exact Or.inr (Or.inr (Or.inl herr2.symm))
              · rw [hd] at herr2
                simp at herr2

/-- Witness for C5 classifying the bad-magic failure of a concrete
corrupted-header stream. -/
theorem claim_C5_witness :
    badMagicErr = badMagicErr ∨ badMagicErr = tooLargeErr ∨ badMagicErr = decodeErr ∨
      badMagicErr = eofErr ∨
      (⟨[1, 2, 3, 4, 0, 0, 0, 0], none⟩ : ByteStream).terminal = some badMagicErr :=
  claim_C5.2 decodeNone ⟨[1, 2, 3, 4, 0, 0, 0, 0], none⟩ 10 badMagicErr (by decide)

/-- C6: whenever the declared length exceeds the soft cap or the hard
ceiling, `recv_frame` fails with the "frame too large" error having
consumed exactly the 8 header bytes: no body byte is read and everything
after the header is left on the stream. -/
theorem claim_C6 (decode : List Nat → Except Unit Frame) (b4 b5 b6 b7 : Nat)
    (rest : List Nat) (t : Option IOErr) (cap : Nat)
    (h : cap < u32_from_be_bytes [b4, b5, b6, b7] ∨
         MAX_FRAME_LEN_HARD < u32_from_be_bytes [b4, b5, b6, b7]) :
    recv_frame decode ⟨MAGIC ++ [b4, b5, b6, b7] ++ rest, t⟩ cap =
      (Except.error tooLargeErr, ⟨rest, t⟩) := by
  rw [recv_frame_cons, if_pos h]

/-- Witness for C6: declared length 256 against soft cap 100 leaves the
two would-be body bytes unread. -/
theorem claim_C6_witness :
    (100 < u32_from_be_bytes [0, 0, 1, 0] ∨
      MAX_FRAME_LEN_HARD < u32_from_be_bytes [0, 0, 1, 0]) ∧
    recv_frame decodeNone ⟨MAGIC ++ [0, 0, 1, 0] ++ [5, 5], none⟩ 100 =
      (Except.error tooLargeErr, ⟨[5, 5], none⟩) :=
  ⟨by decide, claim_C6 decodeNone 0 0 1 0 [5, 5] none 100 (by decide)⟩

/-- C7: `recv_frame` parses bytes 4..8 of the header as a big-endian u32
`len`, reads exactly `len` body bytes (leaving the remainder on the
stream), and hands the 8 header bytes concatenated with the `len` body
bytes, verbatim and in order, to the external codec's decode — returning
the decoded frame on codec success and the "decode error" on codec
failure — while a stream that cleanly closes with fewer than `len` body
bytes makes it fail with the I/O end-of-file error. -/
theorem claim_C7 (decode : List Nat → Except Unit Frame) (b4 b5 b6 b7 : Nat)
    (body rest : List Nat) (t : Option IOErr) (cap : Nat)
    (hlen : body.length = u32_from_be_bytes [b4, b5, b6, b7])
    (hcap : u32_from_be_bytes [b4, b5, b6, b7] ≤ cap)
    (hhard : u32_from_be_bytes [b4, b5, b6, b7] ≤ MAX_FRAME_LEN_HARD) :
    (∀ f, decode (MAGIC ++ [b4, b5, b6, b7] ++ body) = Except.ok f →
        recv_frame decode ⟨MAGIC ++ [b4, b5, b6, b7] ++ (body ++ rest), t⟩ cap =
          (Except.ok (some f), ⟨rest, t⟩)) ∧
    (∀ u, decode (MAGIC ++ [b4, b5, b6, b7] ++ body) = Except.error u →
        recv_frame decode ⟨MAGIC ++ [b4, b5, b6, b7] ++ (body ++ rest), t⟩ cap =
          (Except.error decodeErr, ⟨rest, t⟩)) ∧
    (∀ data : List Nat, data.length < u32_from_be_bytes [b4, b5, b6, b7] →
        (recv_frame decode ⟨MAGIC ++ [b4, b5, b6, b7] ++ data, none⟩ cap).1 =
          Except.error eofErr) := by
  refine ⟨?_, ?_, ?_⟩
  · intro f hd
    rw [recv_frame_cons, if_neg (by omega)]
    rw [read_exact_of_le _ _ (by simp; omega)]
    simp only [List.take_left' hlen, List.drop_left' hlen]
    simp
    rw [show decode (MAGIC ++ b4 :: b5 :: b6 :: b7 :: body) = Except.ok f from hd]
  · intro u hd
    rw [recv_frame_cons, if_neg (by omega)]
    rw [read_exact_of_le _ _ (by simp; omega)]
    simp only [List.take_left' hlen, List.drop_left' hlen]
    simp
    rw [show decode (MAGIC ++ b4 :: b5 :: b6 :: b7 :: body) = Except.error u from hd]
  · intro data hshort
    rw [recv_frame_cons, if_neg (by omega)]
    rw [read_exact_eof _ _ (by simpa using hshort) rfl]

/-- Witness for C7: a 10-byte body decoded by the concrete codec, an
undecodable 2-byte body, and a short body read. -/
theorem claim_C7_witness :
    recv_frame decodeToy
        ⟨MAGIC ++ [0, 0, 0, 10] ++ ([0, 0, 0, 0, 0, 0, 0, 5, 1, 1] ++ [9]), none⟩ 100 =
      (Except.ok (some ⟨5, 1, 1, []⟩), ⟨[9], none⟩) ∧
    recv_frame decodeToy ⟨MAGIC ++ [0, 0, 0, 2] ++ ([7, 7] ++ [9]), none⟩ 100 =
      (Except.error decodeErr, ⟨[9], none⟩) ∧
    (recv_frame decodeToy ⟨MAGIC ++ [0, 0, 0, 2] ++ [], none⟩ 100).1 =
      Except.error eofErr :=
  ⟨(claim_C7 decodeToy 0 0 0 10 [0, 0, 0, 0, 0, 0, 0, 5, 1, 1] [9] none 100
      (by decide) (by decide) (by decide)).1 ⟨5, 1, 1, []⟩ (by decide),
   (claim_C7 decodeToy 0 0 0 2 [7, 7] [9] none 100
      (by decide) (by decide) (by decide)).2.1 () (by decide),
   (claim_C7 decodeToy 0 0 0 2 [7, 7] [9] none 100
      (by decide) (by decide) (by decide)).2.2 [] (by decide)⟩

/-- C8: round-trip — for every frame whose encoding honours the wire
format (magic prefix, big-endian length field, body within the effective
cap) and whose codec satisfies `decode (encode f) = f`, sending with
`send_frame` and receiving the written bytes with `recv_frame` yields
`Ok(Some(g))` with `g` equal to `f` in id, kind, ver and payload. -/
theorem claim_C8 (encode : Frame → List Nat) (decode : List Nat → Except Unit Frame)
    (f : Frame) (cap : Nat)
    (hmag : (encode f).take 4 = MAGIC)
    (hlen8 : 8 ≤ (encode f).length)
    (hlenfield : u32_from_be_bytes (((encode f).take 8).drop 4) = (encode f).length - 8)
    (hcap : (encode f).length - 8 ≤ cap)
    (hhard : (encode f).length - 8 ≤ MAX_FRAME_LEN_HARD)
    (hdec : decode (encode f) = Except.ok f) :
    ∃ (w : ByteWriter) (g : Frame),
      send_frame encode ⟨[], none⟩ f = Except.ok w ∧
      recv_frame decode ⟨w.written, none⟩ cap = (Except.ok (some g), ⟨[], none⟩) ∧
      g.id = f.id ∧ g.kind = f.kind ∧ g.ver = f.ver ∧ g.payload = f.payload := by
  refine ⟨⟨encode f, none⟩, f, by simp [send_frame, write_all], ?_, rfl, rfl, rfl, rfl⟩
  show recv_frame decode ⟨encode f, none⟩ cap = (Except.ok (some f), ⟨[], none⟩)
  exact recv_frame_whole_wire decode (encode f) cap f hmag hlen8 hlenfield hcap hhard hdec

/-- Witness for C8 at the spec's concrete scenario: id from
(namespace = 1, type = 7, local = 42), kind 1, ver 1, payload "hello",
soft cap 256 KiB, over the concrete codec. -/
theorem claim_C8_witness :
    ∃ (w : ByteWriter) (g : Frame),
      send_frame encodeToy ⟨[], none⟩ frame0 = Except.ok w ∧
      recv_frame decodeToy ⟨w.written, none⟩ DEFAULT_FRAME_LEN_SOFT =
        (Except.ok (some g), ⟨[], none⟩) ∧
      g.id = frame0.id ∧ g.kind = frame0.kind ∧ g.ver = frame0.ver ∧
      g.payload = frame0.payload :=
  claim_C8 encodeToy decodeToy frame0 DEFAULT_FRAME_LEN_SOFT (by decide) (by decide)
    (by decide) (by decide) (by decide) (by decide)

/-- C9: `send_frame` applies no size cap and no validation of its own —
for every frame it writes exactly the bytes `encode frame` produces,
verbatim, succeeding precisely when the underlying write succeeds and
propagating the underlying error otherwise; in particular an encoding
larger than the 8 MiB hard ceiling is written without error. -/
theorem claim_C9 (encode : Frame → List Nat) (f : Frame) (w : ByteWriter) :
    (w.failure = none → send_frame encode w f = Except.ok ⟨w.written ++ encode f, none⟩) ∧
    (∀ e, w.failure = some e → send_frame encode w f = Except.error e) := by
  constructor
  · intro h
    simp [send_frame, write_all, h]
  · intro e h
    simp [send_frame, write_all, h]

/-- Witness for C9: a frame encoding one byte above the 8 MiB hard ceiling
is sent without error, and a failing writer propagates its error. -/
theorem claim_C9_witness :
    send_frame (fun _ => List.replicate (MAX_FRAME_LEN_HARD + 1) 0) ⟨[], none⟩ frame0 =
      Except.ok ⟨[] ++ List.replicate (MAX_FRAME_LEN_HARD + 1) 0, none⟩ ∧
    MAX_FRAME_LEN_HARD < (List.replicate (MAX_FRAME_LEN_HARD + 1) (0 : Nat)).length ∧
    send_frame (fun _ => [1]) ⟨[], some eofErr⟩ frame0 = Except.error eofErr :=
  ⟨(claim_C9 (fun _ => List.replicate (MAX_FRAME_LEN_HARD + 1) 0) frame0 ⟨[], none⟩).1 rfl,
   by simp,
   (claim_C9 (fun _ => [1]) frame0 ⟨[], some eofErr⟩).2 eofErr rfl⟩

/-- C10: a valid-magic header declaring length 0 passes the cap check for
every soft cap (including 0), reads zero body bytes, and hands exactly
the 8 header bytes to decode; the stream's remaining bytes are untouched
and the outcome is decode's verdict on those 8 bytes alone. -/
theorem claim_C10 (decode : List Nat → Except Unit Frame) (rest : List Nat)
    (t : Option IOErr) (cap : Nat) :
    recv_frame decode ⟨MAGIC ++ [0, 0, 0, 0] ++ rest, t⟩ cap =
      (match decode (MAGIC ++ [0, 0, 0, 0]) with
       | Except.ok f => Except.ok (some f)
       | Except.error _ => Except.error decodeErr, ⟨rest, t⟩) := by
  rw [recv_frame_cons]
  rw [if_neg (by simp [u32_from_be_bytes])]
  rw [read_exact_of_le _ _ (by simp [u32_from_be_bytes])]
  cases hd : decode (MAGIC ++ [0, 0, 0, 0]) <;> simp [hd, u32_from_be_bytes]

end Nwd1WT
